import Mathlib

/-
Verification of the rely relay's ClickHouse storage layer: the
filter-to-table query planner (`buildQuery`), the result assembler
(`scanEvent`, `deduplicateEvents`), the batch-inserter worker
(`batchInserterOptimized`), and the hot-score aggregator.

Each Go function is shallowly embedded as an executable Lean definition
mirroring the source, and the spec's claims are settled as theorems about
those definitions.
-/

namespace Rely

/-- An event record as stored by the relay (mirrors `nostr.Event` as the
storage layer uses it: id, pubkey, created_at, kind, content, sig, tags). -/
structure Event where
  id : String
  pubkey : String
  createdAt : Nat
  kind : Nat
  content : String
  sig : String
  tags : List (List String)
deriving DecidableEq

/-- A read filter (mirrors `nostr.Filter` as consumed by `buildQuery`):
id/author/kind lists, a tag map (Go `map[string][]string`, modelled as a
total function defaulting to the empty list), inclusive time bounds, a row
limit (Go `int`, hence `Int`), and a search term. -/
structure Filter where
  ids : List String
  authors : List String
  kinds : List Int
  tags : String → List String
  sinceTs : Option Int
  untilTs : Option Int
  limit : Int
  search : String

/-- A bound query parameter appended to `args` by `buildQuery`. -/
inductive Arg where
  | str (s : String)
  | num (n : Nat)
  | strList (l : List String)
deriving DecidableEq

/-- Mirrors `buildQuery` lines 48-64: count how many of the tag types
p, e, a, t, d the filter requests (`len(filter.Tags[x]) > 0`). -/
def tagTypeCount (f : Filter) : Nat :=
  (if 0 < (f.tags "p").length then 1 else 0) +
  (if 0 < (f.tags "e").length then 1 else 0) +
  (if 0 < (f.tags "a").length then 1 else 0) +
  (if 0 < (f.tags "t").length then 1 else 0) +
  (if 0 < (f.tags "d").length then 1 else 0)

/-- Mirrors the `switch` in `buildQuery` lines 69-85: table routing by
priority id > author > kind > single-tag-type (p, then e) > base table. -/
def chooseTable (db : String) (f : Filter) : String :=
  if 0 < f.ids.length then db ++ ".events"
  else if 0 < f.authors.length then db ++ ".events_by_author"
  else if 0 < f.kinds.length then db ++ ".events_by_kind"
  else if tagTypeCount f = 1 ∧ 0 < (f.tags "p").length then db ++ ".events_by_tag_p"
  else if tagTypeCount f = 1 ∧ 0 < (f.tags "e").length then db ++ ".events_by_tag_e"
  else db ++ ".events"

/-- Mirrors the `?`-placeholder lists built with `strings.Join` in
`buildQuery`: `placeholders n` is `"?,?,...,?"` with n question marks. -/
def placeholders (n : Nat) : String :=
  String.intercalate "," (List.replicate n "?")

/-- Mirrors the `conditions` slice assembled in `buildQuery` lines 98-204,
in source order: the soft-delete guard, id/author/kind membership, time
bounds, tag predicates (e, p, a, t, d), and the search predicate. -/
def condsOf (db : String) (f : Filter) (table : String) : List String :=
  ["deleted = 0"]
  ++ (if 0 < f.ids.length then ["id IN (" ++ placeholders f.ids.length ++ ")"] else [])
  ++ (if 0 < f.authors.length then ["pubkey IN (" ++ placeholders f.authors.length ++ ")"] else [])
  ++ (if 0 < f.kinds.length then ["kind IN (" ++ placeholders f.kinds.length ++ ")"] else [])
  ++ (match f.sinceTs with | some _ => ["created_at >= ?"] | none => [])
  ++ (match f.untilTs with | some _ => ["created_at <= ?"] | none => [])
  ++ (if 0 < (f.tags "e").length then
        if table = db ++ ".events_by_tag_e" then
          ["tag_e_value IN (" ++ placeholders (f.tags "e").length ++ ")"]
        else ["hasAny(tag_e, ?)"]
      else [])
  ++ (if 0 < (f.tags "p").length then
        if table = db ++ ".events_by_tag_p" then
          ["tag_p_value IN (" ++ placeholders (f.tags "p").length ++ ")"]
        else ["hasAny(tag_p, ?)"]
      else [])
  ++ (if 0 < (f.tags "a").length then ["hasAny(tag_a, ?)"] else [])
  ++ (if 0 < (f.tags "t").length then ["hasAny(tag_t, ?)"] else [])
  ++ (if 0 < (f.tags "d").length then ["tag_d IN (" ++ placeholders (f.tags "d").length ++ ")"] else [])
  ++ (if f.search ≠ "" then ["hasToken(content, ?)"] else [])

/-- Mirrors the `args` slice of `buildQuery`, parallel to `condsOf`:
kinds pass through `uint16`, timestamps through `uint32` (Euclidean mod). -/
def argsOf (db : String) (f : Filter) (table : String) : List Arg :=
  (if 0 < f.ids.length then f.ids.map Arg.str else [])
  ++ (if 0 < f.authors.length then f.authors.map Arg.str else [])
  ++ (if 0 < f.kinds.length then f.kinds.map (fun k => Arg.num (k % 65536).toNat) else [])
  ++ (match f.sinceTs with | some t => [Arg.num (t % 4294967296).toNat] | none => [])
  ++ (match f.untilTs with | some t => [Arg.num (t % 4294967296).toNat] | none => [])
  ++ (if 0 < (f.tags "e").length then
        if table = db ++ ".events_by_tag_e" then (f.tags "e").map Arg.str
        else [Arg.strList (f.tags "e")]
      else [])
  ++ (if 0 < (f.tags "p").length then
        if table = db ++ ".events_by_tag_p" then (f.tags "p").map Arg.str
        else [Arg.strList (f.tags "p")]
      else [])
  ++ (if 0 < (f.tags "a").length then [Arg.strList (f.tags "a")] else [])
  ++ (if 0 < (f.tags "t").length then [Arg.strList (f.tags "t")] else [])
  ++ (if 0 < (f.tags "d").length then (f.tags "d").map Arg.str else [])
  ++ (if f.search ≠ "" then [Arg.str f.search] else [])

/-- Mirrors `buildQuery` lines 209-212: a limit of 0, or above the hard
maximum 5000, is replaced by 5000; any other value passes through. -/
def effectiveLimit (l : Int) : Int :=
  if l = 0 ∨ 5000 < l then 5000 else l

/-- The SQL text assembled by `buildQuery` for a given effective limit
`l`: SELECT clause, table with FINAL, WHERE over the conditions, and the
fixed ORDER BY / LIMIT tail (`fmt.Sprintf` renders `l` in decimal). -/
def queryFor (db : String) (f : Filter) (l : Int) : String :=
  "SELECT id, pubkey, created_at, kind, content, sig, toJSONString(tags) as tags_json FROM "
  ++ chooseTable db f ++ " FINAL"
  ++ (if 0 < (condsOf db f (chooseTable db f)).length then
        " WHERE " ++ String.intercalate " AND " (condsOf db f (chooseTable db f))
      else "")
  ++ " ORDER BY created_at DESC LIMIT " ++ toString l

/-- Mirrors `buildQuery` (query.go lines 44-216): returns the routed
table, the SQL text, and the bound arguments. -/
def buildQuery (db : String) (f : Filter) : String × String × List Arg :=
  (chooseTable db f,
   queryFor db f (effectiveLimit f.limit),
   argsOf db f (chooseTable db f))

/-- An empty filter, to build concrete test filters by update. -/
def emptyFilter : Filter :=
  { ids := [], authors := [], kinds := [], tags := fun _ => [],
    sinceTs := none, untilTs := none, limit := 0, search := "" }

/-- C8: for every filter with a non-empty id list, `buildQuery` routes to
the base events table, even if the author and/or kind lists are also
non-empty: the id case is the first arm of the routing switch. -/
theorem buildQuery_ids_base_table (db : String) (f : Filter) (h : f.ids ≠ []) :
    (buildQuery db f).1 = db ++ ".events" := by
  show chooseTable db f = db ++ ".events"
  unfold chooseTable
  rw [if_pos (List.length_pos.mpr h)]

/-- Witness for C8 at a filter carrying ids, authors and kinds at once. -/
theorem buildQuery_ids_base_table_witness :
    (buildQuery "nostr"
      { emptyFilter with ids := ["a1"], authors := ["b2"], kinds := [1] }).1
      = "nostr" ++ ".events" :=
  buildQuery_ids_base_table "nostr"
    { emptyFilter with ids := ["a1"], authors := ["b2"], kinds := [1] }
    (by decide)

/-- C4: a limit of zero, or above 5000, yields an effective limit of 5000
in the generated query; a positive limit of at most 5000 passes through
unchanged. -/
theorem buildQuery_limit_clamp (db : String) (f : Filter) :
    ((f.limit = 0 ∨ 5000 < f.limit) →
       effectiveLimit f.limit = 5000 ∧ (buildQuery db f).2.1 = queryFor db f 5000)
    ∧ (0 < f.limit → f.limit ≤ 5000 →
       effectiveLimit f.limit = f.limit ∧ (buildQuery db f).2.1 = queryFor db f f.limit) := by
  constructor
  · intro h
    have he : effectiveLimit f.limit = 5000 := by unfold effectiveLimit; rw [if_pos h]
    exact ⟨he, by show queryFor db f (effectiveLimit f.limit) = _; rw [he]⟩
  · intro h1 h2
    have he : effectiveLimit f.limit = f.limit := by
      unfold effectiveLimit
      rw [if_neg]
      push_neg
      exact ⟨by omega, by omega⟩
    exact ⟨he, by show queryFor db f (effectiveLimit f.limit) = _; rw [he]⟩

/-- Witness for C4: limit 0 and limit 50000 both clamp to 5000 in the
generated query, limit 10 passes through. -/
theorem buildQuery_limit_clamp_witness :
    (buildQuery "nostr" { emptyFilter with limit := 0 }).2.1
      = queryFor "nostr" { emptyFilter with limit := 0 } 5000
    ∧ (buildQuery "nostr" { emptyFilter with limit := 50000 }).2.1
      = queryFor "nostr" { emptyFilter with limit := 50000 } 5000
    ∧ (buildQuery "nostr" { emptyFilter with limit := 10 }).2.1
      = queryFor "nostr" { emptyFilter with limit := 10 } 10 :=
  ⟨((buildQuery_limit_clamp "nostr" _).1 (Or.inl rfl)).2,
   ((buildQuery_limit_clamp "nostr" _).1 (Or.inr (by decide))).2,
   ((buildQuery_limit_clamp "nostr" _).2 (by decide) (by decide)).2⟩

/-- C10: a negative limit is left unclamped — only 0 and values above
5000 are replaced — and the negative number is rendered verbatim at the
end of the generated LIMIT clause. -/
theorem buildQuery_negative_limit (db : String) (f : Filter) (h : f.limit < 0) :
    effectiveLimit f.limit = f.limit
    ∧ (buildQuery db f).2.1 = queryFor db f f.limit
    ∧ ∃ s, (buildQuery db f).2.1 = s ++ toString f.limit := by
  have he : effectiveLimit f.limit = f.limit := by
    unfold effectiveLimit
    rw [if_neg]
    push_neg
    exact ⟨by omega, by omega⟩
  refine ⟨he, ?_, ?_⟩
  · show queryFor db f (effectiveLimit f.limit) = _
    rw [he]
  · refine ⟨"SELECT id, pubkey, created_at, kind, content, sig, toJSONString(tags) as tags_json FROM "
      ++ chooseTable db f ++ " FINAL"
      ++ (if 0 < (condsOf db f (chooseTable db f)).length then
            " WHERE " ++ String.intercalate " AND " (condsOf db f (chooseTable db f))
          else "")
      ++ " ORDER BY created_at DESC LIMIT ", ?_⟩
    show queryFor db f (effectiveLimit f.limit) = _
    rw [he]
    rfl

/-- Witness for C10 at limit -5. -/
theorem buildQuery_negative_limit_witness :
    effectiveLimit ({ emptyFilter with limit := -5 } : Filter).limit
      = ({ emptyFilter with limit := -5 } : Filter).limit
    ∧ (buildQuery "nostr" { emptyFilter with limit := -5 }).2.1
      = queryFor "nostr" { emptyFilter with limit := -5 } (-5)
    ∧ ∃ s, (buildQuery "nostr" { emptyFilter with limit := -5 }).2.1
      = s ++ toString (({ emptyFilter with limit := -5 } : Filter).limit) :=
  buildQuery_negative_limit "nostr" { emptyFilter with limit := -5 } (by decide)

/-- A filter constraining the two tag names p and e together with a
non-empty author list. -/
def cexMultiTagAuthor : Filter :=
  { emptyFilter with
    authors := ["alice"],
    tags := fun s => if s = "p" then ["v1"] else if s = "e" then ["w1"] else [] }

/-- Counterexample to C1: this filter constrains two tag names (p and e),
yet because its author list is non-empty `buildQuery` routes it to the
author view, not the base events table — routing is NOT to the base table
"regardless of id/author/kind presence". -/
theorem buildQuery_multi_tag_author_cex :
    2 ≤ tagTypeCount cexMultiTagAuthor
    ∧ (buildQuery "nostr" cexMultiTagAuthor).1 = "nostr.events_by_author"
    ∧ (buildQuery "nostr" cexMultiTagAuthor).1 ≠ "nostr.events" := by
  refine ⟨by decide, ?_, ?_⟩ <;> decide

/-- C1 amended: a filter whose tag map constrains two or more of the five
tag names the planner counts (p, e, a, t, d) routes to the base events
table provided its author and kind lists are empty; the id list may be
empty or not. (The original claim also allowed non-empty author/kind
lists, but those take routing priority over tags; and tag names g and r
are not counted by the planner at all.) -/
theorem buildQuery_multi_tag_base_amended (db : String) (f : Filter)
    (ha : f.authors = []) (hk : f.kinds = []) (h2 : 2 ≤ tagTypeCount f) :
    (buildQuery db f).1 = db ++ ".events" := by
  show chooseTable db f = db ++ ".events"
  have hne : tagTypeCount f ≠ 1 := by omega
  unfold chooseTable
  simp [ha, hk, hne]

/-- Witness for C1's amended theorem: two tag names, a non-empty id list,
empty author and kind lists — routed to the base table. -/
theorem buildQuery_multi_tag_base_amended_witness :
    (buildQuery "nostr"
      { cexMultiTagAuthor with authors := [], ids := ["x9"] }).1 = "nostr" ++ ".events" :=
  buildQuery_multi_tag_base_amended "nostr"
    { cexMultiTagAuthor with authors := [], ids := ["x9"] } rfl rfl (by decide)

/-- A filter whose only constraint is a single value for the tag name a. -/
def cexSingleTagA : Filter :=
  { emptyFilter with tags := fun s => if s = "a" then ["30023:pk:d1"] else [] }

/-- Counterexample to C2: this filter has exactly one populated recognized
tag name (a) and empty id/author/kind lists, yet `buildQuery` routes it to
the base events table — there is no a-specialized view in the routing
switch (only p and e have one). -/
theorem buildQuery_single_tag_a_cex :
    tagTypeCount cexSingleTagA = 1
    ∧ cexSingleTagA.tags "a" ≠ []
    ∧ cexSingleTagA.ids = [] ∧ cexSingleTagA.authors = [] ∧ cexSingleTagA.kinds = []
    ∧ (buildQuery "nostr" cexSingleTagA).1 = "nostr.events"
    ∧ (buildQuery "nostr" cexSingleTagA).1 ≠ "nostr.events_by_tag_a" := by
  refine ⟨by decide, by decide, rfl, rfl, rfl, ?_, ?_⟩ <;> decide

/-- C2 amended: with empty id/author/kind lists and exactly one populated
tag name among the five the planner counts (p, e, a, t, d), `buildQuery`
routes to the specialized view only when that name is p or e, and a
single populated a, t, or d routes to the base events table; a filter
touching none of those five names — in particular one touching only g or
r, which the planner does not count — also routes to the base table. -/
theorem buildQuery_single_tag_routing_amended (db : String) (f : Filter)
    (hi : f.ids = []) (ha : f.authors = []) (hk : f.kinds = []) :
    (tagTypeCount f = 1 →
      (0 < (f.tags "p").length → (buildQuery db f).1 = db ++ ".events_by_tag_p")
      ∧ (0 < (f.tags "e").length → (buildQuery db f).1 = db ++ ".events_by_tag_e")
      ∧ (f.tags "p" = [] → f.tags "e" = [] → (buildQuery db f).1 = db ++ ".events"))
    ∧ (tagTypeCount f = 0 → (buildQuery db f).1 = db ++ ".events") := by
  constructor
  · intro h1
    refine ⟨?_, ?_, ?_⟩
    · intro hp
      show chooseTable db f = _
      unfold chooseTable
      simp [hi, ha, hk, h1, hp]
    · intro he
      have hp : ¬ 0 < (f.tags "p").length := by
        intro hp
        have : 2 ≤ tagTypeCount f := by
          unfold tagTypeCount
          rw [if_pos hp, if_pos he]
          omega
        omega
      show chooseTable db f = _
      unfold chooseTable
      simp [hi, ha, hk, h1, hp, he]
    · intro hp he
      show chooseTable db f = _
      unfold chooseTable
      simp [hi, ha, hk, hp, he]
  · intro h0
    have hne : tagTypeCount f ≠ 1 := by omega
    show chooseTable db f = _
    unfold chooseTable
    simp [hi, ha, hk, hne]

/-- Witness for C2's amended theorem: a filter with only tag p populated
routes to the p-specialized view, and a filter touching only tag g (not
counted by the planner) routes to the base table. -/
theorem buildQuery_single_tag_routing_amended_witness :
    (buildQuery "nostr"
      { emptyFilter with tags := fun s => if s = "p" then ["def"] else [] }).1
      = "nostr" ++ ".events_by_tag_p"
    ∧ (buildQuery "nostr"
      { emptyFilter with tags := fun s => if s = "g" then ["g1"] else [] }).1
      = "nostr" ++ ".events" :=
  ⟨((buildQuery_single_tag_routing_amended "nostr"
      { emptyFilter with tags := fun s => if s = "p" then ["def"] else [] }
      rfl rfl rfl).1 (by decide)).1 (by decide),
   (buildQuery_single_tag_routing_amended "nostr"
      { emptyFilter with tags := fun s => if s = "g" then ["g1"] else [] }
      rfl rfl rfl).2 (by decide)⟩

/-- The same filter with any tag values under the names g and r removed;
`buildQuery` never reads those two map keys, so its output is unchanged. -/
def eraseGR (f : Filter) : Filter :=
  { f with tags := fun s => if s = "g" ∨ s = "r" then [] else f.tags s }

/-- A filter whose only constraint is a single value for the tag name g. -/
def cexTagG : Filter :=
  { emptyFilter with tags := fun s => if s = "g" then ["geo1"] else [] }

/-- Counterexample to C3: this filter has a non-empty value list for the
recognized tag name g, yet the condition list built for it is just the
soft-delete guard — no predicate constraining the g tag is generated
(`buildQuery` handles only e, p, a, t, d). -/
theorem buildQuery_tag_g_no_predicate_cex :
    cexTagG.tags "g" = ["geo1"]
    ∧ condsOf "nostr" cexTagG (chooseTable "nostr" cexTagG) = ["deleted = 0"] := by
  refine ⟨by decide, ?_⟩
  decide

/-- C3 amended: the planner builds tag predicates only for e, p, a, t, d.
For e and p the predicate is an IN list on the view's singular value
column when routed to that tag's specialized view and hasAny on the array
column otherwise; for a and t it is always hasAny; for d it is always an
IN list on the scalar tag_d column; values under g and r produce no
predicate at all (`buildQuery` is invariant under erasing them). -/
theorem buildQuery_tag_predicates_amended (db : String) (f : Filter) :
    ((f.tags "e") ≠ [] →
      if chooseTable db f = db ++ ".events_by_tag_e" then
        ("tag_e_value IN (" ++ placeholders (f.tags "e").length ++ ")")
          ∈ condsOf db f (chooseTable db f)
      else "hasAny(tag_e, ?)" ∈ condsOf db f (chooseTable db f))
    ∧ ((f.tags "p") ≠ [] →
      if chooseTable db f = db ++ ".events_by_tag_p" then
        ("tag_p_value IN (" ++ placeholders (f.tags "p").length ++ ")")
          ∈ condsOf db f (chooseTable db f)
      else "hasAny(tag_p, ?)" ∈ condsOf db f (chooseTable db f))
    ∧ ((f.tags "a") ≠ [] → "hasAny(tag_a, ?)" ∈ condsOf db f (chooseTable db f))
    ∧ ((f.tags "t") ≠ [] → "hasAny(tag_t, ?)" ∈ condsOf db f (chooseTable db f))
    ∧ ((f.tags "d") ≠ [] →
      ("tag_d IN (" ++ placeholders (f.tags "d").length ++ ")")
        ∈ condsOf db f (chooseTable db f))
    ∧ buildQuery db (eraseGR f) = buildQuery db f := by
  refine ⟨?_, ?_, ?_, ?_, ?_, ?_⟩
  · intro h
    have hl := List.length_pos.mpr h
    by_cases ht : chooseTable db f = db ++ ".events_by_tag_e"
    · rw [if_pos ht]
      simp [condsOf, hl, ht]
    · rw [if_neg ht]
      simp [condsOf, hl, ht]
  · intro h
    have hl := List.length_pos.mpr h
    by_cases ht : chooseTable db f = db ++ ".events_by_tag_p"
    · rw [if_pos ht]
      simp [condsOf, hl, ht]
    · rw [if_neg ht]
      simp [condsOf, hl, ht]
  · intro h
    have hl := List.length_pos.mpr h
    simp [condsOf, hl]
  · intro h
    have hl := List.length_pos.mpr h
    simp [condsOf, hl]
  · intro h
    have hl := List.length_pos.mpr h
    simp [condsOf, hl]
  · simp [buildQuery, queryFor, chooseTable, tagTypeCount, condsOf, argsOf, eraseGR]

/-- A filter populating every recognized tag name at once; it routes to
the base table, so all the array-side predicate shapes apply. -/
def allTagsFilter : Filter :=
  { emptyFilter with
    tags := fun s =>
      if s = "e" then ["e1"] else if s = "p" then ["p1"] else
      if s = "a" then ["a1"] else if s = "t" then ["t1"] else
      if s = "d" then ["d1"] else if s = "g" then ["g1"] else
      if s = "r" then ["r1"] else [] }

/-- Witness for C3's amended theorem at a filter populating all seven
recognized tag names: hasAny predicates for e, p, a, t, an IN list for d,
and invariance under erasing g and r. -/
theorem buildQuery_tag_predicates_amended_witness :
    "hasAny(tag_e, ?)" ∈ condsOf "nostr" allTagsFilter (chooseTable "nostr" allTagsFilter)
    ∧ "hasAny(tag_p, ?)" ∈ condsOf "nostr" allTagsFilter (chooseTable "nostr" allTagsFilter)
    ∧ "hasAny(tag_a, ?)" ∈ condsOf "nostr" allTagsFilter (chooseTable "nostr" allTagsFilter)
    ∧ "hasAny(tag_t, ?)" ∈ condsOf "nostr" allTagsFilter (chooseTable "nostr" allTagsFilter)
    ∧ ("tag_d IN (" ++ placeholders (allTagsFilter.tags "d").length ++ ")")
        ∈ condsOf "nostr" allTagsFilter (chooseTable "nostr" allTagsFilter)
    ∧ buildQuery "nostr" (eraseGR allTagsFilter) = buildQuery "nostr" allTagsFilter := by
  have h := buildQuery_tag_predicates_amended "nostr" allTagsFilter
  have h1 := h.1 (by decide)
  rw [if_neg (by decide)] at h1
  have h2 := h.2.1 (by decide)
  rw [if_neg (by decide)] at h2
  exact ⟨h1, h2, h.2.2.1 (by decide), h.2.2.2.1 (by decide),
    h.2.2.2.2.1 (by decide), h.2.2.2.2.2⟩

/-- Single pass of `deduplicateEvents` (query.go lines 263-268): walk the
list keeping a set of seen identities, dropping an event whose id was
already seen and recording the id otherwise. -/
def dedupGo (seen : List String) : List Event → List Event
  | [] => []
  | e :: rest =>
      if e.id ∈ seen then dedupGo seen rest
      else e :: dedupGo (e.id :: seen) rest

/-- Mirrors `deduplicateEvents` (query.go lines 255-271): lists of length
at most one are returned as-is, otherwise one pass with a seen-id set. -/
def deduplicateEvents (events : List Event) : List Event :=
  if events.length ≤ 1 then events else dedupGo [] events

theorem dedupGo_sublist (seen : List String) (l : List Event) :
    (dedupGo seen l).Sublist l := by
  induction l generalizing seen with
  | nil => simp [dedupGo]
  | cons e rest ih =>
      unfold dedupGo
      by_cases h : e.id ∈ seen
      · rw [if_pos h]
        exact (ih seen).cons e
      · rw [if_neg h]
        exact (ih (e.id :: seen)).cons₂ e

theorem dedupGo_id_not_seen (seen : List String) (l : List Event) :
    ∀ x ∈ dedupGo seen l, x.id ∉ seen := by
  induction l generalizing seen with
  | nil => simp [dedupGo]
  | cons e rest ih =>
      unfold dedupGo
      by_cases h : e.id ∈ seen
      · rw [if_pos h]
        exact ih seen
      · rw [if_neg h]
        intro x hx
        rcases List.mem_cons.mp hx with hx | hx
        · rw [hx]; exact h
        · have := ih (e.id :: seen) x hx
          intro hxs
          exact this (List.mem_cons_of_mem _ hxs)

theorem dedupGo_nodup (seen : List String) (l : List Event) :
    ((dedupGo seen l).map Event.id).Nodup := by
  induction l generalizing seen with
  | nil => simp [dedupGo]
  | cons e rest ih =>
      unfold dedupGo
      by_cases h : e.id ∈ seen
      · rw [if_pos h]
        exact ih seen
      · rw [if_neg h]
        rw [List.map_cons, List.nodup_cons]
        refine ⟨?_, ih (e.id :: seen)⟩
        intro hmem
        rcases List.mem_map.mp hmem with ⟨x, hx, hxe⟩
        exact dedupGo_id_not_seen _ _ x hx (hxe ▸ List.mem_cons_self _ _)

theorem dedupGo_keeps_first (seen : List String) :
    ∀ (xs : List Event) (e : Event) (ys : List Event),
      (∀ x ∈ xs, x.id ≠ e.id) → e.id ∉ seen → e ∈ dedupGo seen (xs ++ e :: ys) := by
  intro xs
  induction xs generalizing seen with
  | nil =>
      intro e ys _ hs
      rw [List.nil_append, dedupGo, if_neg hs]
      exact List.mem_cons_self _ _
  | cons a xs2 ih =>
      intro e ys hxs hs
      have hae := hxs a (List.mem_cons_self _ _)
      rw [List.cons_append, dedupGo]
      by_cases h : a.id ∈ seen
      · rw [if_pos h]
        exact ih seen e ys (fun x hx => hxs x (List.mem_cons_of_mem _ hx)) hs
      · rw [if_neg h]
        refine List.mem_cons_of_mem _ ?_
        refine ih (a.id :: seen) e ys (fun x hx => hxs x (List.mem_cons_of_mem _ hx)) ?_
        intro hmem
        rcases List.mem_cons.mp hmem with hmem | hmem
        · exact hae hmem.symm
        · exact hs hmem

/-- C5: `deduplicateEvents` returns a sublist of its input (so the
original relative order of retained entries is preserved), the ids of the
result are pairwise distinct (each identity appears once), and the first
occurrence of each identity is retained. -/
theorem deduplicateEvents_spec (l : List Event) :
    (deduplicateEvents l).Sublist l
    ∧ ((deduplicateEvents l).map Event.id).Nodup
    ∧ ∀ (xs : List Event) (e : Event) (ys : List Event),
        l = xs ++ e :: ys → (∀ x ∈ xs, x.id ≠ e.id) → e ∈ deduplicateEvents l := by
  unfold deduplicateEvents
  by_cases hlen : l.length ≤ 1
  · rw [if_pos hlen]
    refine ⟨List.Sublist.refl l, ?_, ?_⟩
    · match l, hlen with
      | [], _ => simp
      | [a], _ => simp
    · intro xs e ys hdec _
      rw [hdec]
      exact List.mem_append_right _ (List.mem_cons_self _ _)
  · rw [if_neg hlen]
    refine ⟨dedupGo_sublist [] l, dedupGo_nodup [] l, ?_⟩
    intro xs e ys hdec hxs
    rw [hdec]
    exact dedupGo_keeps_first [] xs e ys hxs (List.not_mem_nil _)

/-- Three concrete events, the third sharing the first's identity. -/
def wEvA : Event := ⟨"id1", "pkA", 10, 1, "hello", "sigA", []⟩

def wEvB : Event := ⟨"id2", "pkB", 11, 1, "world", "sigB", []⟩

def wEvC : Event := ⟨"id1", "pkC", 12, 1, "again", "sigC", []⟩

/-- Witness for C5 on a list containing a duplicated identity: the output
is an order-preserving sublist with distinct ids that keeps the first
occurrence of id1. -/
theorem deduplicateEvents_spec_witness :
    (deduplicateEvents [wEvA, wEvB, wEvC]).Sublist [wEvA, wEvB, wEvC]
    ∧ ((deduplicateEvents [wEvA, wEvB, wEvC]).map Event.id).Nodup
    ∧ wEvA ∈ deduplicateEvents [wEvA, wEvB, wEvC] := by
  have h := deduplicateEvents_spec [wEvA, wEvB, wEvC]
  exact ⟨h.1, h.2.1, h.2.2 [] wEvA [wEvB, wEvC] rfl (by intro x hx; cases hx)⟩

/-- A database row as handed to `scanEvent`: the outcome of `rows.Scan`
(`scanErr` is the driver error, if any) together with the scanned column
values; `tagsJSON` is the serialized tag payload. -/
structure Row where
  scanErr : Option String
  id : String
  pubkey : String
  createdAt : Nat
  kind : Nat
  content : String
  sig : String
  tagsJSON : String

/-- Mirrors `scanEvent` (query.go lines 219-250): a scan failure is
returned as an error; otherwise the tag payload is parsed when non-empty
(`parse` models `json.Unmarshal`), and a parse failure falls back to
empty tags rather than failing the row. -/
def scanEvent (parse : String → Option (List (List String))) (r : Row) :
    Except String Event :=
  match r.scanErr with
  | some msg => Except.error msg
  | none =>
      let tags :=
        if r.tagsJSON ≠ "" then
          match parse r.tagsJSON with
          | some t => t
          | none => []
        else []
      Except.ok { id := r.id, pubkey := r.pubkey, createdAt := r.createdAt,
                  kind := r.kind, content := r.content, sig := r.sig, tags := tags }

/-- C6: when a row scans successfully but its serialized tag payload fails
to parse, `scanEvent` returns the event with empty tags and no error —
the parse failure is isolated to that row, never surfaced upward. -/
theorem scanEvent_parse_failure (parse : String → Option (List (List String)))
    (r : Row) (hs : r.scanErr = none) (hp : parse r.tagsJSON = none) :
    scanEvent parse r = Except.ok
      { id := r.id, pubkey := r.pubkey, createdAt := r.createdAt,
        kind := r.kind, content := r.content, sig := r.sig, tags := [] } := by
  unfold scanEvent
  rw [hs]
  by_cases h : r.tagsJSON = ""
  · simp [h]
  · simp [h, hp]

/-- Witness for C6 at a concrete row whose tag payload no parser accepts. -/
theorem scanEvent_parse_failure_witness :
    scanEvent (fun _ => none)
      { scanErr := none, id := "id1", pubkey := "pk1", createdAt := 7,
        kind := 1, content := "c", sig := "s", tagsJSON := "not json" }
      = Except.ok { id := "id1", pubkey := "pk1", createdAt := 7,
                    kind := 1, content := "c", sig := "s", tags := [] } :=
  scanEvent_parse_failure (fun _ => none) _ rfl rfl

/-- The state owned by the `batchInserterOptimized` worker: the pending
buffer, plus observables — the batches submitted so far (each one call to
`batchInsert`), the number of errors logged, and whether the loop has
returned. -/
structure BState where
  buffer : List Event
  flushes : List (List Event)
  errors : Nat
  stopped : Bool
deriving DecidableEq

/-- Mirrors the `flush` closure (insert code lines 74-95): an empty
buffer is a no-op; otherwise the whole buffer is submitted as one batch,
an error is logged when the write fails (`ok = false`), and the buffer is
reset to empty in either case (`buffer = buffer[:0]`). -/
def flushBuf (ok : Bool) (s : BState) : BState :=
  if s.buffer.isEmpty then s
  else { buffer := [], flushes := s.flushes ++ [s.buffer],
         errors := s.errors + (if ok then 0 else 1), stopped := s.stopped }

/-- One wakeup of the worker's select loop: a shutdown signal, a timer
tick, an event received from the channel, or the channel closing. The
`ok` flag is whether the batch write triggered by this wakeup (if any)
would succeed. -/
inductive BMsg where
  | stop (ok : Bool)
  | tick (ok : Bool)
  | recv (e : Event) (ok : Bool)
  | closed (ok : Bool)
deriving DecidableEq

/-- Mirrors the `for/select` loop of `batchInserterOptimized` (lines
97-117): stop and channel-close flush and return; a tick flushes; a
received event is appended and a flush fires when the buffer reaches the
size threshold. -/
def bstep (batchSize : Nat) (s : BState) (m : BMsg) : BState :=
  if s.stopped then s else
  match m with
  | .stop ok => { flushBuf ok s with stopped := true }
  | .tick ok => flushBuf ok s
  | .closed ok => { flushBuf ok s with stopped := true }
  | .recv e ok =>
      let s2 : BState := { s with buffer := s.buffer ++ [e] }
      if batchSize ≤ s2.buffer.length then flushBuf ok s2 else s2

/-- The events delivered by a wakeup (one for a receive, none otherwise). -/
def eventsOf : BMsg → List Event
  | .recv e _ => [e]
  | _ => []

/-- The write-success flag carried by a wakeup. -/
def okOf : BMsg → Bool
  | .stop ok => ok
  | .tick ok => ok
  | .recv _ ok => ok
  | .closed ok => ok

theorem flushBuf_of_empty (ok : Bool) (s : BState) (h : s.buffer = []) :
    flushBuf ok s = s := by
  unfold flushBuf
  rw [if_pos (by simp [h])]

theorem flushBuf_of_ne (ok : Bool) (s : BState) (h : s.buffer ≠ []) :
    flushBuf ok s = { buffer := [], flushes := s.flushes ++ [s.buffer],
                      errors := s.errors + (if ok then 0 else 1), stopped := s.stopped } := by
  unfold flushBuf
  rw [if_neg (by simp [h])]

theorem flushBuf_spec (ok : Bool) (s : BState) :
    (flushBuf ok s).flushes.flatten ++ (flushBuf ok s).buffer = s.flushes.flatten ++ s.buffer
    ∧ ((flushBuf ok s).flushes ≠ s.flushes →
        (flushBuf ok s).flushes = s.flushes ++ [s.buffer] ∧ (flushBuf ok s).buffer = [])
    ∧ (flushBuf ok s).errors
        = s.errors + (if (flushBuf ok s).flushes ≠ s.flushes ∧ ok = false then 1 else 0) := by
  by_cases h : s.buffer = []
  · rw [flushBuf_of_empty ok s h]
    refine ⟨rfl, fun hne => absurd rfl hne, ?_⟩
    simp
  · rw [flushBuf_of_ne ok s h]
    have hne : s.flushes ++ [s.buffer] ≠ s.flushes := by
      intro heq
      have := congrArg List.length heq
      simp at this
    refine ⟨by simp, fun _ => ⟨rfl, rfl⟩, ?_⟩
    simp only [hne, ne_eq, not_false_eq_true, true_and]
    cases ok <;> simp

/-- C7: one wakeup of the batch-inserter worker. Conjunct 1: batches
already flushed plus the pending buffer always hold exactly the events
received so far, in order — so nothing is ever submitted twice
(at-most-once, no retry). Conjunct 2: whenever a flush occurs (threshold,
timer, or shutdown), the submitted batch is the entire buffered set and
the buffer is empty immediately afterwards, whether or not the write
succeeded. Conjunct 3: the error count grows exactly when a flush's write
failed — the failure is reported, the events are dropped. -/
theorem batchInserter_flush_spec (batchSize : Nat) (s : BState) (m : BMsg)
    (h : s.stopped = false) :
    ((bstep batchSize s m).flushes.flatten ++ (bstep batchSize s m).buffer
       = s.flushes.flatten ++ s.buffer ++ eventsOf m)
    ∧ ((bstep batchSize s m).flushes ≠ s.flushes →
        (bstep batchSize s m).flushes = s.flushes ++ [s.buffer ++ eventsOf m]
        ∧ (bstep batchSize s m).buffer = [])
    ∧ (bstep batchSize s m).errors
        = s.errors + (if (bstep batchSize s m).flushes ≠ s.flushes ∧ okOf m = false
                      then 1 else 0) := by
  have hstep : ∀ ok : Bool,
      (flushBuf ok s).flushes.flatten ++ (flushBuf ok s).buffer
          = s.flushes.flatten ++ s.buffer ++ ([] : List Event)
      ∧ ((flushBuf ok s).flushes ≠ s.flushes →
          (flushBuf ok s).flushes = s.flushes ++ [s.buffer ++ ([] : List Event)]
          ∧ (flushBuf ok s).buffer = [])
      ∧ (flushBuf ok s).errors
          = s.errors + (if (flushBuf ok s).flushes ≠ s.flushes ∧ ok = false
                        then 1 else 0) := by
    intro ok
    have hf := flushBuf_spec ok s
    refine ⟨by rw [List.append_nil]; exact hf.1, ?_, hf.2.2⟩
    intro hne
    rw [List.append_nil]
    exact hf.2.1 hne
  rcases m with ok | ok | ⟨e, ok⟩ | ok
  · have e1 : bstep batchSize s (BMsg.stop ok)
        = { flushBuf ok s with stopped := true } := by
      unfold bstep
      rw [h]
      rfl
    rw [e1]
    exact hstep ok
  · have e1 : bstep batchSize s (BMsg.tick ok) = flushBuf ok s := by
      unfold bstep
      rw [h]
      rfl
    rw [e1]
    exact hstep ok
  · have e1 : bstep batchSize s (BMsg.recv e ok)
        = (if batchSize ≤ (({ s with buffer := s.buffer ++ [e] } : BState)).buffer.length
           then flushBuf ok { s with buffer := s.buffer ++ [e] }
           else ({ s with buffer := s.buffer ++ [e] } : BState)) := by
      unfold bstep
      rw [h]
      rfl
    rw [e1]
    by_cases hth : batchSize ≤ (({ s with buffer := s.buffer ++ [e] } : BState)).buffer.length
    · rw [if_pos hth]
      have hf := flushBuf_spec ok { s with buffer := s.buffer ++ [e] }
      refine ⟨?_, ?_, ?_⟩
      · rw [hf.1]
        show s.flushes.flatten ++ (s.buffer ++ [e])
          = s.flushes.flatten ++ s.buffer ++ eventsOf (BMsg.recv e ok)
        rw [List.append_assoc]
        rfl
      · intro hne
        exact hf.2.1 hne
      · exact hf.2.2
    · rw [if_neg hth]
      refine ⟨?_, ?_, ?_⟩
      · show s.flushes.flatten ++ (s.buffer ++ [e])
          = s.flushes.flatten ++ s.buffer ++ eventsOf (BMsg.recv e ok)
        rw [List.append_assoc]
        rfl
      · intro hne
        exact absurd rfl hne
      · show s.errors = s.errors + _
        rw [if_neg]
        · exact (Nat.add_zero s.errors).symm
        · rintro ⟨hne, _⟩
          exact hne rfl
  · have e1 : bstep batchSize s (BMsg.closed ok)
        = { flushBuf ok s with stopped := true } := by
      unfold bstep
      rw [h]
      rfl
    rw [e1]
    exact hstep ok

/-- Witness for C7: threshold 3, a buffer already holding two events, a
third arrives with a succeeding write — the flush submits all three as
one batch and the buffer is empty immediately after, with no error. -/
theorem batchInserter_flush_spec_witness :
    (bstep 3 ⟨[wEvA, wEvB], [], 0, false⟩ (BMsg.recv wEvC true)).flushes
      = [[wEvA, wEvB] ++ [wEvC]]
    ∧ (bstep 3 ⟨[wEvA, wEvB], [], 0, false⟩ (BMsg.recv wEvC true)).buffer = []
    ∧ (bstep 3 ⟨[wEvA, wEvB], [], 0, false⟩ (BMsg.recv wEvC true)).errors = 0 := by
  have h := batchInserter_flush_spec 3 ⟨[wEvA, wEvB], [], 0, false⟩ (BMsg.recv wEvC true) rfl
  have hne : (bstep 3 ⟨[wEvA, wEvB], [], 0, false⟩ (BMsg.recv wEvC true)).flushes
      ≠ ([] : List (List Event)) := by decide
  have hb := h.2.1 hne
  refine ⟨hb.1, hb.2, ?_⟩
  have he := h.2.2
  rw [if_neg (by simp [okOf])] at he
  simpa using he

/-- Modelled from the spec: the hot-score refresh is implemented in
`analytics.go` (`RefreshHotPosts`), which is not among the provided
source files. The spec fixes the raw engagement weights — reply ×3,
repost ×2, reaction ×1, tip/zap ×5 — combined into a weighted sum. -/
def engagementScore (replies reactions reposts zaps : Nat) : ℚ :=
  3 * replies + 2 * reposts + 1 * reactions + 5 * zaps

/-- Modelled from the spec: the raw engagement sum adjusted by a
time-decay factor; the spec leaves the exact curve as an implementation
parameter constrained to be monotonically non-increasing in age, modelled
here by the representative factor 1 / (ageHours + 2). -/
def hotScore (replies reactions reposts zaps ageHours : Nat) : ℚ :=
  engagementScore replies reactions reposts zaps / (ageHours + 2)

/-- Counterexample to C9 as stated: two events with identical all-zero
engagement counters score equally at 1 hour and at 47 hours of age — the
newer one does NOT score strictly greater, because the decay factor
multiplies a zero raw sum. -/
theorem hotScore_zero_engagement_cex :
    hotScore 0 0 0 0 1 = hotScore 0 0 0 0 47
    ∧ ¬ (hotScore 0 0 0 0 47 < hotScore 0 0 0 0 1) := by
  norm_num [hotScore, engagementScore]

/-- C9 amended: for identical raw engagement counters the hot score is
monotonically non-increasing in event age, and when the raw weighted
engagement sum is positive the event aged 1 hour scores strictly greater
than the one aged 47 hours. -/
theorem hotScore_amended (replies reactions reposts zaps : Nat) :
    (∀ a b : Nat, a ≤ b →
      hotScore replies reactions reposts zaps b ≤ hotScore replies reactions reposts zaps a)
    ∧ (0 < engagementScore replies reactions reposts zaps →
      hotScore replies reactions reposts zaps 47 < hotScore replies reactions reposts zaps 1) := by
  have hE : (0:ℚ) ≤ engagementScore replies reactions reposts zaps := by
    unfold engagementScore
    positivity
  constructor
  · intro a b hab
    unfold hotScore
    rw [div_eq_mul_inv, div_eq_mul_inv]
    apply mul_le_mul_of_nonneg_left _ hE
    rw [← one_div, ← one_div]
    apply one_div_le_one_div_of_le
    · positivity
    · have hc : (a:ℚ) ≤ (b:ℚ) := by exact_mod_cast hab
      linarith
  · intro hpos
    unfold hotScore
    apply div_lt_div_of_pos_left hpos
    · positivity
    · norm_num

/-- Witness for C9's amended theorem at one reply and no other
engagement: the score is antitone between ages 2 and 5 hours and strictly
larger at 1 hour than at 47. -/
theorem hotScore_amended_witness :
    hotScore 1 0 0 0 5 ≤ hotScore 1 0 0 0 2
    ∧ hotScore 1 0 0 0 47 < hotScore 1 0 0 0 1 :=
  ⟨(hotScore_amended 1 0 0 0).1 2 5 (by norm_num),
   (hotScore_amended 1 0 0 0).2 (by norm_num [engagementScore])⟩

end Rely
